import Mathlib

/-!
Shallow embedding of the record-stream decoder in src/read.py.

The byte source is modelled as a list of natural numbers (the bytes of the
file, in order).  The function read_file walks the stream: it reads one tag
byte, dispatches on it, reads that tags fixed-size payload with f.read, and
unpacks the payload with struct.unpack.  A read of n bytes returns
min(n, remaining) bytes (Python file semantics); struct.unpack raises
struct.error when the buffer length differs from the size the format string
requires, and that exception aborts the whole pass.

Numeric fields: a float32 field is represented by its big-endian 32-bit bit
pattern (a natural number below 2^32).  The decoder performs no arithmetic
on the decoded floats, and struct.unpack of a big-endian float32 is
determined by exactly this bit pattern, so the embedding is faithful at the
bit level.  A 16-bit signed field is represented by its twos-complement
integer value, as struct.unpack with format h produces.

The B branch of the source reads the count as a raw bytes object and then
evaluates (count - 2) * 12; in Python 3 subtracting an int from a bytes
object raises TypeError, recorded here as Err.typeError.  The f-string in
that branch evaluates left to right, so the 24-byte header unpack (which can
itself raise struct.error) happens before the TypeError is reached.
-/

/-- Big-endian interpretation of a list of bytes as an unsigned number. -/
def beWord (l : List Nat) : Nat :=
  l.foldl (fun a b => a * 256 + b) 0

/-- Big-endian twos-complement interpretation of two bytes, as struct
format h (signed 16-bit) produces. -/
def beInt16 (l : List Nat) : Int :=
  let w := beWord l
  if w < 32768 then (w : Int) else (w : Int) - 65536

/-- Split a byte list into consecutive 4-byte groups and give each groups
big-endian 32-bit word: the bit patterns that struct.unpack of a run of
big-endian float32 fields decodes, in order. -/
def floats32 : List Nat → List Nat
  | a :: b :: c :: d :: rest => beWord [a, b, c, d] :: floats32 rest
  | _ => []

/-- Exceptions the decode pass can raise.  structError carries only the
byte count the format string requires, matching the Python message
"unpack requires a buffer of N bytes"; the TypeError raised by the
B branch (bytes minus int) carries nothing relevant. -/
inductive Err where
  | structError (required : Nat)
  | typeError
deriving Repr, DecidableEq

/-- Model of struct.unpack with a format of k big-endian float32 fields:
it requires exactly 4*k bytes and yields their bit patterns in order. -/
def unpackFloats (k : Nat) (b : List Nat) : Except Err (List Nat) :=
  if b.length = 4 * k then Except.ok (floats32 b)
  else Except.error (Err.structError (4 * k))

/-- Model of struct.unpack with a format of k big-endian float32 fields
followed by one big-endian signed 16-bit field: requires exactly
4*k + 2 bytes. -/
def unpackFloatsInt16 (k : Nat) (b : List Nat) : Except Err (List Nat × Int) :=
  if b.length = 4 * k + 2 then
    Except.ok (floats32 (b.take (4 * k)), beInt16 (b.drop (4 * k)))
  else Except.error (Err.structError (4 * k + 2))

/-- Model of struct.unpack with format B (one unsigned byte): requires
exactly 1 byte. -/
def unpackUInt8 (b : List Nat) : Except Err Nat :=
  if b.length = 1 then Except.ok (beWord b)
  else Except.error (Err.structError 1)

/-- One decoded record, as printed by read_file: the tag letter plus the
tuple struct.unpack produced for its payload. -/
inductive Rec where
  | F (fields : List Nat)
  | T (v : Nat)
  | P (fields : List Nat)
  | L (fields : List Nat) (i : Int)
  | E (fields : List Nat) (i : Int)
  | S (fields : List Nat) (i : Int)
  | C (fields : List Nat) (i : Int)
  | Y (fields : List Nat) (i : Int)
deriving Repr, DecidableEq

/-- How one decode pass ended: the loop broke cleanly on a zero-byte tag
read, or an exception propagated out of read_file. -/
inductive Result where
  | clean
  | err (e : Err)
deriving Repr, DecidableEq

/-- Observable outcome of one call to read_file: the records printed in
order, the number of source bytes consumed, the number of loop iterations
that read a tag byte and entered the body, how the pass ended, and how many
times f.close() ran (the close at the end of read_file is reached only when
the loop breaks; a propagating exception skips it). -/
structure Out where
  recs : List Rec
  consumed : Nat
  iters : Nat
  result : Result
  closes : Nat
deriving Repr, DecidableEq

/-- The tag dispatch of read_file for the fixed-layout tags, mirroring the
chain of equality tests on the tag byte: each recognized fixed tag maps to
the byte count its f.read requests and the struct.unpack call applied to
what that read returns.  ASCII codes: F=70, T=84, P=80, L=76, E=69, S=83,
C=67, Y=89 (B=66 is handled separately since its branch raises TypeError
instead of producing a record). -/
def fixedTag (ins : Nat) : Option (Nat × (List Nat → Except Err Rec)) :=
  if ins = 70 then some (12, fun c => (unpackFloats 3 c).map Rec.F)
  else if ins = 84 then some (1, fun c => (unpackUInt8 c).map Rec.T)
  else if ins = 80 then some (12, fun c => (unpackFloats 3 c).map Rec.P)
  else if ins = 76 then some (26, fun c => (unpackFloatsInt16 6 c).map fun x => Rec.L x.1 x.2)
  else if ins = 69 then some (34, fun c => (unpackFloatsInt16 8 c).map fun x => Rec.E x.1 x.2)
  else if ins = 83 then some (38, fun c => (unpackFloatsInt16 9 c).map fun x => Rec.S x.1 x.2)
  else if ins = 67 then some (34, fun c => (unpackFloatsInt16 8 c).map fun x => Rec.C x.1 x.2)
  else if ins = 89 then some (34, fun c => (unpackFloatsInt16 8 c).map fun x => Rec.Y x.1 x.2)
  else none

/-- The decode loop of read_file over the remaining bytes of the source.

Each iteration reads one byte; a zero-byte read breaks the loop and reaches
the f.close() call.  A recognized fixed tag reads its payload (min of
requested and remaining bytes) and unpacks it; a struct.error aborts the
pass with the bytes read so far consumed and no record for that payload.
Tag B reads the count byte, reads and unpacks the 24-byte header, then
raises TypeError evaluating (count - 2) on the bytes object.  Any other
byte falls through every equality test and the loop continues at the next
byte. -/
def read_file (s : List Nat) : Out :=
  match s with
  | [] => { recs := [], consumed := 0, iters := 0, result := Result.clean, closes := 1 }
  | ins :: rest =>
    match fixedTag ins with
    | some (need, parse) =>
      match parse (rest.take need) with
      | Except.error e =>
        { recs := [], consumed := 1 + (rest.take need).length, iters := 1,
          result := Result.err e, closes := 0 }
      | Except.ok r =>
        let o := read_file (rest.drop need)
        { recs := r :: o.recs, consumed := 1 + need + o.consumed,
          iters := 1 + o.iters, result := o.result, closes := o.closes }
    | none =>
      if ins = 66 then
        match unpackFloats 6 ((rest.drop 1).take 24) with
        | Except.error e =>
          { recs := [], consumed := 1 + (rest.take 1).length + ((rest.drop 1).take 24).length,
            iters := 1, result := Result.err e, closes := 0 }
        | Except.ok _ =>
          { recs := [], consumed := 1 + (rest.take 1).length + 24, iters := 1,
            result := Result.err Err.typeError, closes := 0 }
      else
        let o := read_file rest
        { recs := o.recs, consumed := 1 + o.consumed, iters := 1 + o.iters,
          result := o.result, closes := o.closes }
termination_by s.length
decreasing_by
  · simp [List.length_drop]; omega
  · simp

/-- A buffer is one complete fixed-layout record: a recognized fixed tag
byte followed by exactly the payload byte count that tag requires. -/
def validFixedBuf (buf : List Nat) : Prop :=
  ∃ ins need parse p, fixedTag ins = some (need, parse) ∧ p.length = need ∧ buf = ins :: p

theorem fixedTag_parse_ok_length {ins need : Nat} {parse : List Nat → Except Err Rec}
    {c : List Nat} {r : Rec} (h : fixedTag ins = some (need, parse))
    (hok : parse c = Except.ok r) : c.length = need := by
  unfold fixedTag at h
  split_ifs at h <;>
    (simp only [Option.some.injEq, Prod.mk.injEq] at h
     obtain ⟨rfl, rfl⟩ := h) <;>
  · by_contra hne
    simp [unpackFloats, unpackFloatsInt16, unpackUInt8, Except.map, hne] at hok

theorem fixedTag_parse_short {ins need : Nat} {parse : List Nat → Except Err Rec}
    {c : List Nat} (h : fixedTag ins = some (need, parse))
    (hne : c.length ≠ need) : parse c = Except.error (Err.structError need) := by
  unfold fixedTag at h
  split_ifs at h <;>
    (simp only [Option.some.injEq, Prod.mk.injEq] at h
     obtain ⟨rfl, rfl⟩ := h) <;>
  simp [unpackFloats, unpackFloatsInt16, unpackUInt8, Except.map, hne]

theorem fixedTag_parse_complete {ins need : Nat} {parse : List Nat → Except Err Rec}
    {c : List Nat} (h : fixedTag ins = some (need, parse)) (hlen : c.length = need) :
    ∃ r, parse c = Except.ok r := by
  unfold fixedTag at h
  split_ifs at h <;>
    (simp only [Option.some.injEq, Prod.mk.injEq] at h
     obtain ⟨rfl, rfl⟩ := h) <;>
  simp [unpackFloats, unpackFloatsInt16, unpackUInt8, Except.map, hlen]

theorem unpackFloats_ok_length {k : Nat} {b : List Nat} {v : List Nat}
    (h : unpackFloats k b = Except.ok v) : b.length = 4 * k := by
  by_contra hne
  simp [unpackFloats, hne] at h

/-- Invariants of the decode loop, by functional induction: every loop
iteration consumes at least one byte, the pass never consumes more bytes
than the source holds, a clean pass consumes the whole source, and the
close at the end of read_file runs exactly when the pass ends cleanly. -/
theorem read_file_invariants (s : List Nat) :
    (read_file s).iters ≤ (read_file s).consumed ∧
    (read_file s).consumed ≤ s.length ∧
    ((read_file s).result = Result.clean → (read_file s).consumed = s.length) ∧
    (read_file s).closes = (if (read_file s).result = Result.clean then 1 else 0) := by
  induction s using read_file.induct with
  | case1 => simp [read_file]
  | case2 ins rest need parse h1 e h2 =>
      simp only [read_file, h1, h2, List.length_cons, List.length_take]
      refine ⟨by omega, by omega, by simp, by simp⟩
  | case3 ins rest need parse h1 r h2 ih =>
      have hlen : (rest.take need).length = need := fixedTag_parse_ok_length h1 h2
      have hneed : need ≤ rest.length := by
        simp only [List.length_take] at hlen; omega
      obtain ⟨ih1, ih2, ih3, ih4⟩ := ih
      simp only [List.length_drop] at ih2 ih3
      simp only [read_file, h1, h2, List.length_cons]
      refine ⟨by omega, by omega, fun hres => by have := ih3 hres; omega, ih4⟩
  | case4 rest e h1 h2 =>
      simp only [read_file, h2, h1, List.length_cons, List.length_take, List.length_drop,
        if_true, eq_self_iff_true]
      refine ⟨by omega, by omega, by simp, by simp⟩
  | case5 rest a h1 h2 =>
      have hl := unpackFloats_ok_length h1
      simp only [List.length_take, List.length_drop] at hl
      simp only [read_file, h2, h1, List.length_cons, List.length_take, if_true,
        eq_self_iff_true]
      refine ⟨by omega, by omega, by simp, by simp⟩
  | case6 ins rest h1 h2 ih =>
      obtain ⟨ih1, ih2, ih3, ih4⟩ := ih
      simp only [read_file, h1, if_neg h2, List.length_cons]
      refine ⟨by omega, by omega, fun hres => by have := ih3 hres; omega, ih4⟩

/-- Decoding one complete fixed-layout record at the head of the stream
produces its record and continues on the remaining bytes unchanged. -/
theorem read_file_fixed_prepend {ins need : Nat} {parse : List Nat → Except Err Rec}
    {p : List Nat} {r : Rec} (h : fixedTag ins = some (need, parse))
    (hp : p.length = need) (hok : parse p = Except.ok r) (s : List Nat) :
    read_file (ins :: (p ++ s)) =
      { recs := r :: (read_file s).recs,
        consumed := 1 + need + (read_file s).consumed,
        iters := 1 + (read_file s).iters,
        result := (read_file s).result,
        closes := (read_file s).closes } := by
  have ht : (p ++ s).take need = p := by
    rw [← hp]; exact List.take_left p s
  have hd : (p ++ s).drop need = s := by
    rw [← hp]; exact List.drop_left p s
  simp only [read_file, h, ht, hd, hok]

/-- Decoding a buffer holding exactly one complete fixed-layout record
yields that one record and ends cleanly. -/
theorem read_file_fixed_single {ins need : Nat} {parse : List Nat → Except Err Rec}
    {p : List Nat} {r : Rec} (h : fixedTag ins = some (need, parse))
    (hp : p.length = need) (hok : parse p = Except.ok r) :
    read_file (ins :: p) =
      { recs := [r], consumed := 1 + need, iters := 1,
        result := Result.clean, closes := 1 } := by
  have := read_file_fixed_prepend h hp hok []
  simpa [read_file] using this

/-- Concatenation homomorphism over complete fixed-layout record buffers:
the records of the concatenation are the records of the buffers in order,
one per buffer, and the pass ends cleanly. -/
theorem read_file_concat_valid (bufs : List (List Nat))
    (h : ∀ b ∈ bufs, validFixedBuf b) :
    (read_file bufs.flatten).recs = bufs.flatMap (fun b => (read_file b).recs) ∧
    (read_file bufs.flatten).recs.length = bufs.length ∧
    (read_file bufs.flatten).result = Result.clean := by
  induction bufs with
  | nil => simp [read_file]
  | cons b bs ih =>
    obtain ⟨ins, need, parse, p, hft, hp, rfl⟩ := h b (List.mem_cons_self b bs)
    obtain ⟨r, hok⟩ := fixedTag_parse_complete hft hp
    obtain ⟨ih1, ih2, ih3⟩ := ih (fun x hx => h x (List.mem_cons_of_mem _ hx))
    have hflat : ((ins :: p) :: bs).flatten = ins :: (p ++ bs.flatten) := by simp
    rw [hflat, read_file_fixed_prepend hft hp hok]
    refine ⟨?_, ?_, ?_⟩
    · simp [read_file_fixed_single hft hp hok, ih1]
    · simp [ih2]
    · simpa using ih3

/-- C1: for every fixed-layout tag (F, T, P, L, E, S, C, Y), decoding a byte
source containing exactly the tag byte followed by the declared payload
(F=12, T=1, P=12, L=26, E=34, S=38, C=34, Y=34 bytes) yields exactly one
record whose fields are the big-endian interpretation of the payload bytes
in the listed order (float32 fields as their 32-bit big-endian bit
patterns, the trailing field as a big-endian signed 16-bit integer), and
consumes exactly 1 + payload_length bytes, ending cleanly. -/
theorem claim_C1_fixed_tag_decode :
    (∀ p : List Nat, p.length = 12 → read_file (70 :: p) =
      { recs := [Rec.F (floats32 p)], consumed := 13, iters := 1,
        result := Result.clean, closes := 1 }) ∧
    (∀ p : List Nat, p.length = 1 → read_file (84 :: p) =
      { recs := [Rec.T (beWord p)], consumed := 2, iters := 1,
        result := Result.clean, closes := 1 }) ∧
    (∀ p : List Nat, p.length = 12 → read_file (80 :: p) =
      { recs := [Rec.P (floats32 p)], consumed := 13, iters := 1,
        result := Result.clean, closes := 1 }) ∧
    (∀ p : List Nat, p.length = 26 → read_file (76 :: p) =
      { recs := [Rec.L (floats32 (p.take 24)) (beInt16 (p.drop 24))], consumed := 27,
        iters := 1, result := Result.clean, closes := 1 }) ∧
    (∀ p : List Nat, p.length = 34 → read_file (69 :: p) =
      { recs := [Rec.E (floats32 (p.take 32)) (beInt16 (p.drop 32))], consumed := 35,
        iters := 1, result := Result.clean, closes := 1 }) ∧
    (∀ p : List Nat, p.length = 38 → read_file (83 :: p) =
      { recs := [Rec.S (floats32 (p.take 36)) (beInt16 (p.drop 36))], consumed := 39,
        iters := 1, result := Result.clean, closes := 1 }) ∧
    (∀ p : List Nat, p.length = 34 → read_file (67 :: p) =
      { recs := [Rec.C (floats32 (p.take 32)) (beInt16 (p.drop 32))], consumed := 35,
        iters := 1, result := Result.clean, closes := 1 }) ∧
    (∀ p : List Nat, p.length = 34 → read_file (89 :: p) =
      { recs := [Rec.Y (floats32 (p.take 32)) (beInt16 (p.drop 32))], consumed := 35,
        iters := 1, result := Result.clean, closes := 1 }) := by
  refine ⟨?_, ?_, ?_, ?_, ?_, ?_, ?_, ?_⟩ <;> intro p hp <;>
  · have ht : p.take p.length = p := List.take_of_length_le (by omega)
    have hd : p.drop p.length = [] := List.drop_eq_nil_of_le (by omega)
    rw [hp] at ht hd
    simp [read_file, fixedTag, unpackFloats, unpackFloatsInt16, unpackUInt8,
      Except.map, ht, hd, hp]

/-- Witness for C1 at the end-to-end example of the specification: the
buffer holding tag F and the big-endian float32 encodings of 1.0, 2.0 and
3.0 (bit patterns 0x3F800000, 0x40000000, 0x40400000) decodes to one F
record with exactly those three field patterns, consuming all 13 bytes. -/
theorem claim_C1_witness :
    read_file [70, 63, 128, 0, 0, 64, 0, 0, 0, 64, 64, 0, 0] =
      { recs := [Rec.F [1065353216, 1073741824, 1077936128]], consumed := 13,
        iters := 1, result := Result.clean, closes := 1 } := by
  have h := claim_C1_fixed_tag_decode.1 [63, 128, 0, 0, 64, 0, 0, 0, 64, 64, 0, 0] (by decide)
  rw [h]
  decide

/-- C8: decoding an empty byte source yields zero records and terminates
normally with a clean end of stream (and the close runs); in general a
clean pass is exactly one that ran out of source at a tag read, so it has
consumed the entire source. -/
theorem claim_C8_empty_clean :
    read_file [] =
      { recs := [], consumed := 0, iters := 0, result := Result.clean, closes := 1 } ∧
    (∀ s : List Nat, (read_file s).result = Result.clean →
      (read_file s).consumed = s.length) := by
  refine ⟨by simp [read_file], fun s h => (read_file_invariants s).2.2.1 h⟩

/-- Witness for C8: a stream holding one complete T record ends cleanly and
the clean pass has consumed both of its bytes. -/
theorem claim_C8_witness : (read_file [84, 7]).consumed = 2 := by
  have h := claim_C8_empty_clean.2 [84, 7]
    (by simp [read_file, fixedTag, unpackUInt8, Except.map])
  simpa using h

/-- C9: the decode loop terminates on every finite source: the number of
loop iterations that enter the body is at most the number of source bytes,
because every such iteration consumes at least the tag byte it read; the
bytes consumed never exceed the source length. -/
theorem claim_C9_termination_bound (s : List Nat) :
    (read_file s).iters ≤ s.length ∧ (read_file s).consumed ≤ s.length := by
  have h := read_file_invariants s
  exact ⟨le_trans h.1 h.2.1, h.2.1⟩

/-- C10: tags E, C and Y share one payload layout and decode routine: for
any one 34-byte payload, the decoded E, C and Y records carry the same
field tuple (the same eight float32 bit patterns and the same trailing
signed 16-bit value); the three results differ only in the record
constructor, that is, in the tag letter. -/
theorem claim_C10_ECY_shared_layout (p : List Nat) (h : p.length = 34) :
    ∃ fs : List Nat, ∃ i : Int,
      read_file (69 :: p) =
        { recs := [Rec.E fs i], consumed := 35, iters := 1,
          result := Result.clean, closes := 1 } ∧
      read_file (67 :: p) =
        { recs := [Rec.C fs i], consumed := 35, iters := 1,
          result := Result.clean, closes := 1 } ∧
      read_file (89 :: p) =
        { recs := [Rec.Y fs i], consumed := 35, iters := 1,
          result := Result.clean, closes := 1 } := by
  refine ⟨floats32 (p.take 32), beInt16 (p.drop 32), ?_, ?_, ?_⟩ <;>
  · have ht : p.take 34 = p := List.take_of_length_le (by omega)
    have hd : p.drop 34 = [] := List.drop_eq_nil_of_le (by omega)
    simp [read_file, fixedTag, unpackFloatsInt16, Except.map, ht, hd, h]

/-- Witness for C10 at the all-zero 34-byte payload. -/
theorem claim_C10_witness :
    ∃ fs : List Nat, ∃ i : Int,
      read_file (69 :: List.replicate 34 0) =
        { recs := [Rec.E fs i], consumed := 35, iters := 1,
          result := Result.clean, closes := 1 } ∧
      read_file (67 :: List.replicate 34 0) =
        { recs := [Rec.C fs i], consumed := 35, iters := 1,
          result := Result.clean, closes := 1 } ∧
      read_file (89 :: List.replicate 34 0) =
        { recs := [Rec.Y fs i], consumed := 35, iters := 1,
          result := Result.clean, closes := 1 } :=
  claim_C10_ECY_shared_layout (List.replicate 34 0) (by simp)

/-- C2 evaluation at the failing input: for tag B with count byte 0 and a
complete 24-byte header, the code does not clamp the variable-section
length to zero and read on; it consumes the tag byte, the count byte and
the 24 header bytes and then raises TypeError evaluating (count - 2),
because count is the raw bytes object f.read(1) returned, so no B record
is ever produced. -/
theorem claim_C2_code_evaluation :
    read_file [66, 0, 0, 0, 0, 0, 0, 0, 0, 0, 0, 0, 0, 0, 0, 0, 0, 0, 0, 0, 0, 0, 0, 0, 0, 0] =
      { recs := [], consumed := 26, iters := 1,
        result := Result.err Err.typeError, closes := 0 } := by
  simp [read_file, fixedTag, unpackFloats, floats32, beWord]

/-- C3 evaluation at the failing input: a complete 76-byte B record with
count byte 4 (tag, count, 24-byte header, two 12-byte extra vertices,
26-byte trailer).  The claim requires one B record and 76 bytes consumed;
the code consumes only 26 bytes, emits no record, and raises TypeError at
(count - 2). -/
theorem claim_C3_code_evaluation :
    read_file [66, 4, 0, 0, 0, 0, 0, 0, 0, 0, 0, 0, 0, 0, 0, 0, 0, 0, 0, 0, 0, 0, 0, 0, 0, 0, 0, 0, 0, 0, 0, 0, 0, 0, 0, 0, 0, 0, 0, 0, 0, 0, 0, 0, 0, 0, 0, 0, 0, 0, 0, 0, 0, 0, 0, 0, 0, 0, 0, 0, 0, 0, 0, 0, 0, 0, 0, 0, 0, 0, 0, 0, 0, 0, 0, 0] =
      { recs := [], consumed := 26, iters := 1,
        result := Result.err Err.typeError, closes := 0 } := by
  simp [read_file, fixedTag, unpackFloats, floats32, beWord]

/-- Counterexample to C4 as stated: the error raised on a truncated record
does not identify the tag being decoded nor the byte offset of the failure.
The whole decode outcome for the truncated F buffer [70] equals the outcome
for the truncated P buffer [80], although the two tags differ, and the
truncated F payload at offset 2 in [33, 70] raises the very same error
value as the one at offset 1 in [70]. -/
theorem claim_C4_counterexample :
    read_file [70] = read_file [80] ∧
    (read_file [33, 70]).result = (read_file [70]).result ∧
    (70 : Nat) ≠ 80 := by
  refine ⟨?_, ?_, by decide⟩ <;> simp [read_file, fixedTag, unpackFloats, Except.map]

/-- C4 amended: for every fixed-layout tag, if the source ends while the
payload is still being read (fewer bytes remain than the tag requires),
decoding fails with the struct unpack error, which carries only the
required byte count (not the tag, not the offset); no incomplete record is
emitted for that payload and zero records are produced for the truncated
tail, and the bytes that were available were consumed.  (A truncated B
record instead fails earlier, with the TypeError of the count bug.) -/
theorem claim_C4_truncation_error :
    ∀ ins need : Nat, ∀ parse : List Nat → Except Err Rec,
      fixedTag ins = some (need, parse) →
      ∀ p : List Nat, p.length < need →
        read_file (ins :: p) =
          { recs := [], consumed := 1 + p.length, iters := 1,
            result := Result.err (Err.structError need), closes := 0 } := by
  intro ins need parse h p hlt
  have ht : p.take need = p := List.take_of_length_le (by omega)
  have hshort : (p.take need).length ≠ need := by rw [ht]; omega
  have hp := fixedTag_parse_short h hshort
  rw [ht] at hp
  simp only [read_file, h, ht, hp]

/-- Witness for the amended C4: the F record buffer from the C1 witness
with its last byte removed fails with the unpack error demanding 12 bytes,
produces zero records, and skips the close. -/
theorem claim_C4_witness :
    read_file [70, 63, 128, 0, 0, 64, 0, 0, 0, 64, 64, 0] =
      { recs := [], consumed := 12, iters := 1,
        result := Result.err (Err.structError 12), closes := 0 } := by
  have h := claim_C4_truncation_error 70 12 (fun c => (unpackFloats 3 c).map Rec.F) rfl
    [63, 128, 0, 0, 64, 0, 0, 0, 64, 64, 0] (by decide)
  simpa using h

/-- Counterexample to C5 as stated: over arbitrary tags the homomorphism
fails, because a complete, format-valid B record buffer is a valid record
of the stream format, yet the code produces zero records for it instead of
one.  The 52-byte buffer below is one complete B record with count byte 2
(empty variable section): tag, count, 24-byte header, 26-byte trailer.
Decoding this one-buffer concatenation must, by the claim, give exactly one
record; it gives none and aborts with the TypeError of the count bug. -/
theorem claim_C5_counterexample :
    (read_file [66, 2, 0, 0, 0, 0, 0, 0, 0, 0, 0, 0, 0, 0, 0, 0, 0, 0, 0, 0, 0, 0, 0, 0, 0, 0, 0, 0, 0, 0, 0, 0, 0, 0, 0, 0, 0, 0, 0, 0, 0, 0, 0, 0, 0, 0, 0, 0, 0, 0, 0, 0]).recs.length = 0 ∧
    (read_file [66, 2, 0, 0, 0, 0, 0, 0, 0, 0, 0, 0, 0, 0, 0, 0, 0, 0, 0, 0, 0, 0, 0, 0, 0, 0, 0, 0, 0, 0, 0, 0, 0, 0, 0, 0, 0, 0, 0, 0, 0, 0, 0, 0, 0, 0, 0, 0, 0, 0, 0, 0]).result =
      Result.err Err.typeError := by
  constructor <;> simp [read_file, fixedTag, unpackFloats, floats32, beWord]

/-- C5 amended: decoding is a homomorphism over concatenation of complete
fixed-layout record buffers (tags F, T, P, L, E, S, C, Y): for every list
of such buffers, decoding the concatenation yields exactly one record per
buffer, in exactly the order the buffers appear, namely the record each
buffer decodes to on its own, and the pass ends cleanly. -/
theorem claim_C5_concat_homomorphism (bufs : List (List Nat))
    (h : ∀ b ∈ bufs, validFixedBuf b) :
    (read_file bufs.flatten).recs = bufs.flatMap (fun b => (read_file b).recs) ∧
    (read_file bufs.flatten).recs.length = bufs.length ∧
    (read_file bufs.flatten).result = Result.clean :=
  read_file_concat_valid bufs h

/-- Witness for the amended C5 on the two-buffer stream of one T record
followed by one F record. -/
theorem claim_C5_witness :
    (read_file ([[84, 7], 70 :: List.replicate 12 0].flatten)).recs =
      [[84, 7], 70 :: List.replicate 12 0].flatMap (fun b => (read_file b).recs) ∧
    (read_file ([[84, 7], 70 :: List.replicate 12 0].flatten)).recs.length = 2 ∧
    (read_file ([[84, 7], 70 :: List.replicate 12 0].flatten)).result = Result.clean := by
  have hv : ∀ b ∈ [[84, 7], 70 :: List.replicate 12 0], validFixedBuf b := by
    intro b hb
    simp only [List.mem_cons, List.not_mem_nil, or_false] at hb
    rcases hb with rfl | rfl
    · exact ⟨84, 1, _, [7], rfl, rfl, rfl⟩
    · exact ⟨70, 12, _, List.replicate 12 0, rfl, by simp, rfl⟩
  simpa using claim_C5_concat_homomorphism [[84, 7], 70 :: List.replicate 12 0] hv

/-- C6: a byte in tag position that is none of the recognized tags
(F=70, T=84, P=80, L=76, E=69, S=83, B=66, C=67, Y=89) falls through every
equality test: the decoder emits no record for it, consumes exactly that
one byte, raises nothing, and the rest of the pass is exactly the decode of
the remaining bytes. -/
theorem claim_C6_unknown_tag_skipped :
    ∀ ins : Nat, ins ∉ [70, 84, 80, 76, 69, 83, 66, 67, 89] →
    ∀ rest : List Nat,
      read_file (ins :: rest) =
        { recs := (read_file rest).recs,
          consumed := 1 + (read_file rest).consumed,
          iters := 1 + (read_file rest).iters,
          result := (read_file rest).result,
          closes := (read_file rest).closes } := by
  intro ins h rest
  simp only [List.mem_cons, List.not_mem_nil, or_false, not_or] at h
  obtain ⟨h70, h84, h80, h76, h69, h83, h66, h67, h89⟩ := h
  have hn : fixedTag ins = none := by
    simp [fixedTag, h70, h84, h80, h76, h69, h83, h67, h89]
  simp only [read_file, hn, if_neg h66]

/-- Witness for C6: byte 33 is not a recognized tag; in front of a T record
it is skipped with exactly one byte consumed and the T record still
decodes. -/
theorem claim_C6_witness :
    read_file [33, 84, 7] =
      { recs := [Rec.T 7], consumed := 3, iters := 2,
        result := Result.clean, closes := 1 } := by
  have h := claim_C6_unknown_tag_skipped 33 (by decide) [84, 7]
  rw [h]
  simp [read_file, fixedTag, unpackUInt8, Except.map, beWord]

/-- Counterexample to C7 as stated: the byte source is not closed on every
execution path.  On the truncated F buffer [70] the pass fails with the
unpack error, the exception propagates out of read_file before the close
at its end, and the close runs zero times, not once. -/
theorem claim_C7_counterexample :
    (read_file [70]).closes = 0 ∧ (read_file [70]).result ≠ Result.clean := by
  constructor <;> simp [read_file, fixedTag, unpackFloats, Except.map]

/-- C7 amended: the close at the end of read_file runs exactly once when
the pass terminates normally at a clean end of stream, and zero times when
the pass fails with an error, since the propagating exception skips it. -/
theorem claim_C7_close_on_clean_only (s : List Nat) :
    ((read_file s).result = Result.clean → (read_file s).closes = 1) ∧
    ((read_file s).result ≠ Result.clean → (read_file s).closes = 0) := by
  have h := (read_file_invariants s).2.2.2
  constructor <;> intro hres
  · rw [h, if_pos hres]
  · rw [h, if_neg hres]

/-- Witness for the amended C7: the empty source closes once; the truncated
F buffer closes zero times. -/
theorem claim_C7_witness :
    (read_file []).closes = 1 ∧ (read_file [70]).closes = 0 := by
  constructor
  · exact (claim_C7_close_on_clean_only []).1 (by simp [read_file])
  · exact (claim_C7_close_on_clean_only [70]).2
      (by simp [read_file, fixedTag, unpackFloats, Except.map])

/-- Witness for C9 on a one-byte source: one iteration, one byte, both
within the source length. -/
theorem claim_C9_witness :
    (read_file [33]).iters ≤ 1 ∧ (read_file [33]).consumed ≤ 1 := by
  simpa using claim_C9_termination_bound [33]
